import Mathlib

/-!
Verification of the `wedof_client` module: a rate-limited HTTP fetcher and a
pagination aggregator.  Python runtime values returned by JSON decoding are
modelled by `PyVal`; Python's dynamically-typed operations (`in`, `len`,
truthiness, subscription) are modelled by total Lean functions returning
`Except PyErr _` where the Python operation can raise `TypeError`.
The pagination loop of `WedofClient.get_paginated_data` is modelled with an
explicit fuel argument (`none` = the loop did not finish within the fuel),
and the HTTP world is a parameter mapping the query-parameter mapping sent
with each request to that request's outcome.
-/

namespace WedofSync

/-- A decoded JSON value as a Python runtime value (the result of
`response.json()`): `None`, `bool`, `int`, `str`, `list`, `dict`. -/
inductive PyVal : Type where
  | vNone : PyVal
  | vBool : Bool → PyVal
  | vInt : Int → PyVal
  | vStr : String → PyVal
  | vList : List PyVal → PyVal
  | vDict : List (String × PyVal) → PyVal

/-- A Python dict with string keys, as an association list with distinct keys
(Python dicts preserve insertion order; updates keep the key's position). -/
abbrev Params := List (String × PyVal)

/-- Python `d[k]` read on a dict: first binding of `k`. -/
def dictLookup (kvs : Params) (k : String) : Option PyVal :=
  (kvs.find? (fun e => e.1 == k)).map (fun e => e.2)

/-- Python `d[k] = v` on a dict: update in place if the key exists
(position preserved), else append the new binding. -/
def dictSet : Params → String → PyVal → Params
  | [], k, v => [(k, v)]
  | (k0, v0) :: rest, k, v =>
    if k0 == k then (k, v) :: rest else (k0, v0) :: dictSet rest k v

/-- Errors raised by Python dynamic operations. -/
inductive PyErr : Type where
  | typeError : PyErr
  | keyError : PyErr
deriving DecidableEq, Repr

/-- Python truthiness (`bool(v)`): empty containers, empty strings, `0`,
`False` and `None` are falsy. -/
def pyTruthy : PyVal → Bool
  | .vNone => false
  | .vBool b => b
  | .vInt n => !(n == 0)
  | .vStr s => !s.isEmpty
  | .vList xs => !xs.isEmpty
  | .vDict kvs => !kvs.isEmpty

/-- `needle` occurs as a contiguous run inside `hay`. -/
def charsContain (needle : List Char) : List Char → Bool
  | [] => needle.isEmpty
  | c :: rest => needle.isPrefixOf (c :: rest) || charsContain needle rest

/-- Python `'data' in v`: key membership for dicts, substring test for
strings, element membership for lists; `TypeError` on `None`/`bool`/`int`. -/
def pyContainsData : PyVal → Except PyErr Bool
  | .vDict kvs => .ok (kvs.any (fun e => e.1 == "data"))
  | .vStr s => .ok (charsContain "data".toList s.toList)
  | .vList xs =>
    .ok (xs.any (fun x => match x with | .vStr s => s == "data" | _ => false))
  | .vNone => .error .typeError
  | .vBool _ => .error .typeError
  | .vInt _ => .error .typeError

/-- Python `v['data']`: dict key read (`KeyError` if absent); `TypeError` on
any non-dict (string subscripts must be integers). -/
def pySubscriptData : PyVal → Except PyErr PyVal
  | .vDict kvs =>
    match dictLookup kvs "data" with
    | some v => .ok v
    | none => .error .keyError
  | _ => .error .typeError

/-- Python `len(v)`: length of lists, strings, and dicts (number of keys);
`TypeError` otherwise. -/
def pyLen : PyVal → Except PyErr Nat
  | .vList xs => .ok xs.length
  | .vStr s => .ok s.length
  | .vDict kvs => .ok kvs.length
  | _ => .error .typeError

/-- `pyLen` with default `0` where `len` would raise (used only to state
properties; never reached in that case under the theorems' hypotheses). -/
def pyLenD (v : PyVal) : Nat :=
  match pyLen v with
  | .ok n => n
  | .error _ => 0

/-- Python `data if isinstance(data, list) else [data]`
(wedof_client.py line 115). -/
def pyWrap : PyVal → List PyVal
  | .vList xs => xs
  | v => [v]

/-- Failure outcomes of `WedofClient._make_request`: non-2xx HTTP status
(`requests.exceptions.HTTPError` from `raise_for_status`), a transport
failure (`requests.exceptions.RequestException`), a JSON decode failure
from `response.json()`, or the `ValueError` raised by
`int(response.headers['X-RateLimit-Remaining'])` on a non-numeric header
(wedof_client.py line 69), which neither except clause catches.  All
propagate out of `_make_request`. -/
inductive ReqErr : Type where
  | http : Nat → ReqErr
  | transport : ReqErr
  | decode : ReqErr
  | valueError : ReqErr
deriving DecidableEq, Repr

/-- An exception escaping `get_paginated_data`: either a request failure or a
Python `TypeError`/`KeyError` raised while normalizing the response. -/
inductive DrainErr : Type where
  | req : ReqErr → DrainErr
  | py : PyErr → DrainErr
deriving DecidableEq, Repr

/-- An HTTP response as seen by `_make_request`: status code, the raw
string value of the `X-RateLimit-Remaining` header when present (HTTP
headers are strings; the source parses it with `int(...)` at line 69), and
the decoded JSON body (`none` when the body is not JSON-decodable). -/
structure HttpResponse : Type where
  status : Nat
  rateLimitRemaining : Option String
  body : Option PyVal

/-- A character list with surrounding ASCII whitespace removed. -/
def trimChars (cs : List Char) : List Char :=
  ((cs.dropWhile (fun c => c.isWhitespace)).reverse.dropWhile
    (fun c => c.isWhitespace)).reverse

/-- The value of a nonempty run of decimal digits (`none` otherwise). -/
def digitsVal (cs : List Char) : Option Nat :=
  if cs.isEmpty then none
  else if cs.all (fun c => c.isDigit) then
    some (cs.foldl (fun acc c => acc * 10 + (c.toNat - 48)) 0)
  else none

/-- Python `int(s)` on a decimal string: optional surrounding whitespace,
an optional sign (`+` is codepoint 43, `-` is 45), then one or more decimal
digits; any other shape raises `ValueError` (`none` here).  Underscore digit
grouping, also accepted by Python, is not needed for this header. -/
def pyIntOfChars (cs : List Char) : Option Int :=
  match cs with
  | c :: rest =>
    if c = Char.ofNat 43 then (digitsVal rest).map Int.ofNat
    else if c = Char.ofNat 45 then
      (digitsVal rest).map (fun n => -(Int.ofNat n))
    else (digitsVal cs).map Int.ofNat
  | [] => none

/-- Python `int(s)` for a string. -/
def pyIntOfString (s : String) : Option Int :=
  pyIntOfChars (trimChars s.toList)

/-- Whether the remaining-quota header, if present, parses as an integer —
i.e. whether `int(...)` at wedof_client.py line 69 would not raise. -/
def headerParses : Option String → Bool
  | some s => (pyIntOfString s).isSome
  | none => true

/-- `WedofClient._make_request` (wedof_client.py lines 63-80), given the
transport outcome (`none` = transport failure).  Returns the decoded JSON or
the propagated error, paired with whether the "Rate limit proche" warning was
logged: `raise_for_status` raises on status 400-599; otherwise, if the
`X-RateLimit-Remaining` header is present it is parsed with `int(...)` — a
non-numeric value raises `ValueError`, caught by neither except clause — and
a parsed value below 5 emits the warning; then `response.json()` is returned
(its decode failure propagating). -/
def make_request (resp : Option HttpResponse) : Except ReqErr PyVal × Bool :=
  match resp with
  | none => (.error .transport, false)
  | some r =>
    if 400 ≤ r.status ∧ r.status < 600 then (.error (.http r.status), false)
    else
      match r.rateLimitRemaining with
      | some h =>
        match pyIntOfString h with
        | none => (.error .valueError, false)
        | some remaining =>
          let warn : Bool := decide (remaining < 5)
          match r.body with
          | some v => (.ok v, warn)
          | none => (.error .decode, warn)
      | none =>
        match r.body with
        | some v => (.ok v, false)
        | none => (.error .decode, false)

/-- The condition under which `_make_request` logs the low-quota warning:
the `X-RateLimit-Remaining` header is present, parses, and is below 5. -/
def lowQuota : Option String → Bool
  | some h =>
    match pyIntOfString h with
    | some remaining => decide (remaining < 5)
    | none => false
  | none => false

/-- The raw normalized value `data` of one page (wedof_client.py lines
105-110): the response itself if it is a list, else `response['data']` if
`'data' in response`, else the whole response. -/
def rawOf (response : PyVal) : Except PyErr PyVal :=
  match response with
  | .vList _ => .ok response
  | _ =>
    match pyContainsData response with
    | .error e => .error e
    | .ok true => pySubscriptData response
    | .ok false => .ok response

/-- Outcome of one iteration of the pagination loop: stop (break) or request
another page, each carrying the items appended to `all_data` this iteration. -/
inductive StepOut : Type where
  | stop : List PyVal → StepOut
  | more : List PyVal → StepOut

/-- The items a `StepOut` appends. -/
def stItems : StepOut → List PyVal
  | .stop items => items
  | .more items => items

/-- Whether a `StepOut` breaks the loop. -/
def isStop : StepOut → Bool
  | .stop _ => true
  | .more _ => false

/-- The body of the pagination loop after a response arrives
(wedof_client.py lines 104-121): normalize to `data`; `if not data: break`;
extend `all_data` with `data` wrapped to a list; break if
`len(data) < params['limit']` (the limit is 100), else continue. -/
def drainStep (response : PyVal) : Except PyErr StepOut :=
  match rawOf response with
  | .error e => .error e
  | .ok data =>
    if pyTruthy data = false then .ok (.stop [])
    else
      let items := pyWrap data
      match pyLen data with
      | .error e => .error e
      | .ok n => if n < 100 then .ok (.stop items) else .ok (.more items)

/-- The HTTP world seen by a drain of one endpoint: maps the query-parameter
mapping sent with a request to the outcome `_make_request` produces for it. -/
abbrev Src := Params → Except ReqErr PyVal

/-- The `while True` loop of `get_paginated_data` (wedof_client.py lines
97-121), with fuel: sets `params['page']` and `params['limit'] = 100`, issues
the request, and acts per `drainStep`.  On termination returns the
concatenated items together with the final parameter mapping, paired with the
trace of page numbers requested; errors propagate, discarding the items. -/
def drainLoop (src : Src) : Nat → Nat → Params →
    Option (Except DrainErr (List PyVal × Params) × List Nat)
  | 0, _, _ => none
  | fuel + 1, page, params0 =>
    let params := dictSet (dictSet params0 "page" (.vInt page)) "limit" (.vInt 100)
    match src params with
    | .error e => some (.error (.req e), [page])
    | .ok response =>
      match drainStep response with
      | .error e => some (.error (.py e), [page])
      | .ok (.stop items) => some (.ok (items, params), [page])
      | .ok (.more items) =>
        match drainLoop src fuel (page + 1) params with
        | none => none
        | some (.ok (rest, finalParams), tr) =>
          some (.ok (items ++ rest, finalParams), page :: tr)
        | some (.error e, tr) => some (.error e, page :: tr)

/-- `params = params or {}` (wedof_client.py line 95): the mapping the loop
works on — the caller's mapping if supplied and truthy, else a fresh one. -/
def initParams : Option Params → Params
  | none => []
  | some l => if l.isEmpty then [] else l

/-- Whether the mapping the loop mutates is the caller's very object:
`params or {}` keeps the caller's object exactly when it is truthy. -/
def paramsShared : Option Params → Bool
  | none => false
  | some l => !l.isEmpty

/-- `WedofClient.get_paginated_data` (wedof_client.py lines 82-124):
`page` starts at 1, `all_data` at `[]`. -/
def get_paginated_data (src : Src) (params0 : Option Params) (fuel : Nat) :
    Option (Except DrainErr (List PyVal × Params) × List Nat) :=
  drainLoop src fuel 1 (initParams params0)

/-- The page numbers requested by a terminating drain (empty if the fuel ran
out). -/
def drainTrace (src : Src) (params0 : Option Params) (fuel : Nat) : List Nat :=
  match get_paginated_data src params0 fuel with
  | none => []
  | some (_, tr) => tr

/-- The HTTP world seen by a whole client: maps an endpoint path and the
query-parameter mapping of a request to that request's outcome. -/
abbrev World := String → Params → Except ReqErr PyVal

/-- `WedofClient.get_users` (wedof_client.py line 127). -/
def get_users (world : World) (fuel : Nat) :=
  get_paginated_data (world "/api/users") none fuel

/-- `WedofClient.get_trainings` (wedof_client.py line 131). -/
def get_trainings (world : World) (fuel : Nat) :=
  get_paginated_data (world "/api/trainings") none fuel

/-- `WedofClient.get_sessions` (wedof_client.py line 135). -/
def get_sessions (world : World) (fuel : Nat) :=
  get_paginated_data (world "/api/sessions") none fuel

/-- `WedofClient.get_attendees` (wedof_client.py line 139). -/
def get_attendees (world : World) (fuel : Nat) :=
  get_paginated_data (world "/api/attendees") none fuel

/-- `WedofClient.get_registration_folders` (wedof_client.py line 143). -/
def get_registration_folders (world : World) (fuel : Nat) :=
  get_paginated_data (world "/api/registrationFolders") none fuel

/-- `WedofClient.get_certification_folders` (wedof_client.py line 147). -/
def get_certification_folders (world : World) (fuel : Nat) :=
  get_paginated_data (world "/api/certificationFolders") none fuel

/-- `WedofClient.get_organisms` (wedof_client.py line 151). -/
def get_organisms (world : World) (fuel : Nat) :=
  get_paginated_data (world "/api/organisms") none fuel

/-- `WedofClient.get_activities` (wedof_client.py line 155). -/
def get_activities (world : World) (fuel : Nat) :=
  get_paginated_data (world "/api/activities") none fuel

/-- `WedofClient.get_evaluations` (wedof_client.py line 159). -/
def get_evaluations (world : World) (fuel : Nat) :=
  get_paginated_data (world "/api/evaluations") none fuel

/-- `WedofClient.get_invoices` (wedof_client.py line 163). -/
def get_invoices (world : World) (fuel : Nat) :=
  get_paginated_data (world "/api/invoices") none fuel

/-- `WedofClient.get_payments` (wedof_client.py line 167). -/
def get_payments (world : World) (fuel : Nat) :=
  get_paginated_data (world "/api/payments") none fuel

/-- The endpoint table of `get_all_data` (wedof_client.py lines 182-194),
with each named method flattened to the endpoint path it drains. -/
def endpoints : List (String × String) :=
  [("users", "/api/users"),
   ("trainings", "/api/trainings"),
   ("sessions", "/api/sessions"),
   ("attendees", "/api/attendees"),
   ("registration_folders", "/api/registrationFolders"),
   ("certification_folders", "/api/certificationFolders"),
   ("organisms", "/api/organisms"),
   ("activities", "/api/activities"),
   ("evaluations", "/api/evaluations"),
   ("invoices", "/api/invoices"),
   ("payments", "/api/payments")]

/-- The `for name, method in endpoints` loop of `get_all_data`
(wedof_client.py lines 196-203): each method is its endpoint's drain with no
caller parameters; `all_data[name] = method()` on success, and the
`except Exception` arm stores `all_data[name] = []` on any failure.
`none` means some drain never terminated within the fuel. -/
def runEndpoints (world : World) (fuel : Nat) :
    List (String × String) → Option (List (String × List PyVal))
  | [] => some []
  | (name, path) :: rest =>
    match get_paginated_data (world path) none fuel with
    | none => none
    | some (.ok (items, _), _) =>
      (runEndpoints world fuel rest).map (fun tail => (name, items) :: tail)
    | some (.error _, _) =>
      (runEndpoints world fuel rest).map (fun tail => (name, []) :: tail)

/-- `WedofClient.get_all_data` (wedof_client.py lines 171-206). -/
def get_all_data (world : World) (fuel : Nat) :
    Option (List (String × List PyVal)) :=
  runEndpoints world fuel endpoints

/-- The key list of an aggregate result. -/
def aggKeys (o : Option (List (String × List PyVal))) : Option (List String) :=
  o.map (fun res => res.map (fun e => e.1))

/-- Read one endpoint's collection out of an aggregate result. -/
def aggLookup (o : Option (List (String × List PyVal))) (name : String) :
    Option (List PyVal) :=
  o.bind (fun res => (res.find? (fun e => e.1 == name)).map (fun e => e.2))

/-- The collection `get_all_data` stores for one endpoint: the drained items
on success, the empty list when the drain raised, `none` when the drain never
terminated within the fuel. -/
def endpointItems (world : World) (fuel : Nat) (path : String) :
    Option (List PyVal) :=
  match get_paginated_data (world path) none fuel with
  | none => none
  | some (.ok (items, _), _) => some items
  | some (.error _, _) => some []

/-- `min_request_interval` (wedof_client.py line 34): 0.6 seconds,
100 requests per minute. -/
def minRequestInterval : ℚ := 3 / 5

/-- `WedofClient._wait_for_rate_limit` (wedof_client.py lines 36-45) under an
idealized rational clock: `lastTime` is the stored `last_request_time`,
`currentTime` the first `time.time()` reading; if less than the interval
elapsed, sleep the remainder.  The result is the second `time.time()`
reading, stored as the new `last_request_time` just before the request is
issued; `slack ≥ 0` models sleep overshoot plus the delay between the sleep's
end and the second reading. -/
def wait_for_rate_limit (lastTime currentTime slack : ℚ) : ℚ :=
  let timeSinceLast := currentTime - lastTime
  if timeSinceLast < minRequestInterval then
    currentTime + (minRequestInterval - timeSinceLast) + slack
  else
    currentTime + slack

/-- The start time of each of a sequence of `_make_request` calls on one
client instance: `last_request_time` starts at 0 (wedof_client.py line 33);
call `n` reads the clock at `clk n` and has slack `eps n`. -/
def callStart (clk eps : Nat → ℚ) : Nat → ℚ
  | 0 => wait_for_rate_limit 0 (clk 0) (eps 0)
  | n + 1 => wait_for_rate_limit (callStart clk eps n) (clk (n + 1)) (eps (n + 1))

/-- The list of items one loop iteration of `get_paginated_data` appends for
a response (`none` when handling the response raises). -/
def pageItemsOf (response : PyVal) : Option (List PyVal) :=
  match drainStep response with
  | .ok st => some (stItems st)
  | .error _ => none

/-- Modelled from the spec's words, for comparison with the code (claim C3):
"if the response is itself an ordered sequence, that sequence is the page;
else if the response has a field named data, that field's value is the page;
else the whole response value is wrapped into a one-element sequence". -/
def claimNormalize (response : PyVal) : List PyVal :=
  match response with
  | .vList xs => xs
  | .vDict kvs =>
    match dictLookup kvs "data" with
    | some (.vList xs) => xs
    | some v => [v]
    | none => [response]
  | _ => [response]

/-- The page number a mock endpoint reads off the request's parameters. -/
def pageOfParams (params : Params) : Nat :=
  match dictLookup params "page" with
  | some (.vInt n) => n.toNat
  | _ => 0

/-- A mock page of `n` items, globally numbered from `start`. -/
def mkPage (start n : Nat) : List PyVal :=
  (List.range n).map (fun i => .vInt (Int.ofNat (start + i)))

/-- Mock endpoint returning pages of sizes [100, 100, 37]. -/
def srcShort : Src := fun params =>
  match pageOfParams params with
  | 1 => .ok (.vList (mkPage 0 100))
  | 2 => .ok (.vList (mkPage 100 100))
  | 3 => .ok (.vList (mkPage 200 37))
  | _ => .ok (.vList [])

/-- Mock endpoint returning pages of sizes [100, 100, 0]. -/
def srcExact : Src := fun params =>
  match pageOfParams params with
  | 1 => .ok (.vList (mkPage 0 100))
  | 2 => .ok (.vList (mkPage 100 100))
  | _ => .ok (.vList [])

/-- Mock endpoint whose every page is empty. -/
def srcEmpty : Src := fun _ => .ok (.vList [])

/-- Mock endpoint whose every response fails to JSON-decode. -/
def srcDecodeFailure : Src := fun _ => .error .decode

/-- Mock endpoint whose every response decodes to the bare number 7. -/
def srcScalar : Src := fun _ => .ok (.vInt 7)

/-- Mock endpoint that always fails at the transport layer. -/
def srcTransportFailure : Src := fun _ => .error .transport

/-- A bare JSON object with 100 keys, none of them named "data". -/
def bigObject : PyVal :=
  .vDict ((List.range 100).map (fun i => (toString i, .vNone)))

/-- A mock world where every endpoint's first page holds one item, except
`/api/attendees`, which fails with HTTP status 500. -/
def worldOneFailure : World := fun path _ =>
  if path == "/api/attendees" then .error (.http 500)
  else .ok (.vList [.vInt 1])

/-- A clock reading 10, 20, 30, ... seconds at successive calls. -/
def clkW : Nat → ℚ := fun i => 10 * ((i : ℚ) + 1)

/-- Zero slack: idealized exact sleeps and instantaneous clock reads. -/
def epsW : Nat → ℚ := fun _ => 0

/-- A mock world failing every request at the transport layer. -/
def worldTransportFailure : World := fun _ _ => .error .transport

theorem dictLookup_dictSet_same (m : Params) (k : String) (v : PyVal) :
    dictLookup (dictSet m k v) k = some v := by
  induction m with
  | nil => simp [dictSet, dictLookup]
  | cons e rest ih =>
    obtain ⟨k0, v0⟩ := e
    by_cases h : k0 = k
    · simp [dictSet, dictLookup, h]
    · have hb : (k0 == k) = false := by simp [h]
      simpa [dictSet, dictLookup, hb, List.find?] using ih

theorem dictLookup_dictSet_other (m : Params) (k k2 : String) (v : PyVal)
    (hne : ¬ k2 = k) : dictLookup (dictSet m k v) k2 = dictLookup m k2 := by
  have hkk : (k == k2) = false := by
    simp only [beq_eq_false_iff_ne, ne_eq]
    exact fun hc => hne hc.symm
  induction m with
  | nil => simp [dictSet, dictLookup, List.find?, hkk]
  | cons e rest ih =>
    obtain ⟨k0, v0⟩ := e
    by_cases h : k0 = k
    · subst h
      simp [dictSet, dictLookup, List.find?, hkk]
    · have hb : (k0 == k) = false := by simp [h]
      by_cases h2 : k0 = k2
      · subst h2
        simp [dictSet, dictLookup, List.find?, hb]
      · have hb2 : (k0 == k2) = false := by simp [h2]
        simpa [dictSet, dictLookup, hb, hb2, List.find?] using ih

/-- The parameter mapping sent with each request binds "page" to the current
page number and "limit" to 100. -/
theorem sentParams_lookup (params : Params) (page : Nat) :
    dictLookup (dictSet (dictSet params "page" (.vInt page)) "limit" (.vInt 100))
      "page" = some (.vInt page) ∧
    dictLookup (dictSet (dictSet params "page" (.vInt page)) "limit" (.vInt 100))
      "limit" = some (.vInt 100) := by
  constructor
  · rw [dictLookup_dictSet_other _ _ _ _ (by decide)]
    exact dictLookup_dictSet_same _ _ _
  · exact dictLookup_dictSet_same _ _ _

/-- A terminating drain's trace of requested pages counts up by one from its
starting page, and is never empty. -/
theorem drainLoop_trace (src : Src) : ∀ (fuel page : Nat) (params : Params)
    (r : Except DrainErr (List PyVal × Params)) (tr : List Nat),
    drainLoop src fuel page params = some (r, tr) →
    tr = List.range' page tr.length ∧ tr ≠ [] := by
  intro fuel
  induction fuel with
  | zero => intro page params r tr h; simp [drainLoop] at h
  | succ n ih =>
    intro page params r tr h
    simp only [drainLoop] at h
    rcases hsrc : src (dictSet (dictSet params "page" (.vInt page)) "limit"
        (.vInt 100)) with e | response
    · simp only [hsrc, Option.some.injEq, Prod.mk.injEq] at h
      obtain ⟨-, htr⟩ := h
      subst htr
      exact ⟨rfl, by simp⟩
    · simp only [hsrc] at h
      rcases hstep : drainStep response with e | st
      · simp only [hstep, Option.some.injEq, Prod.mk.injEq] at h
        obtain ⟨-, htr⟩ := h
        subst htr
        exact ⟨rfl, by simp⟩
      · simp only [hstep] at h
        rcases st with items | items
        · simp only [Option.some.injEq, Prod.mk.injEq] at h
          obtain ⟨-, htr⟩ := h
          subst htr
          exact ⟨rfl, by simp⟩
        · rcases hrec : drainLoop src n (page + 1)
              (dictSet (dictSet params "page" (.vInt page)) "limit" (.vInt 100))
            with - | ⟨r2, tr2⟩
          · simp only [hrec] at h
            exact Option.noConfusion h
          · simp only [hrec] at h
            obtain ⟨htr2, -⟩ := ih (page + 1) _ _ _ hrec
            rcases r2 with e | ⟨rest, fin⟩
            · simp only [Option.some.injEq, Prod.mk.injEq] at h
              obtain ⟨-, htr⟩ := h
              subst htr
              exact ⟨congrArg (List.cons page) htr2, by simp⟩
            · simp only [Option.some.injEq, Prod.mk.injEq] at h
              obtain ⟨-, htr⟩ := h
              subst htr
              exact ⟨congrArg (List.cons page) htr2, by simp⟩

/-- On a successful drain the final parameter mapping binds "limit" to 100
and "page" to the last page requested, and leaves every other key bound as it
was in the mapping the loop started from. -/
theorem drainLoop_finalParams (src : Src) : ∀ (fuel page : Nat)
    (params : Params) (items : List PyVal) (finp : Params) (tr : List Nat),
    drainLoop src fuel page params = some (.ok (items, finp), tr) →
    dictLookup finp "limit" = some (.vInt 100) ∧
    dictLookup finp "page" = some (.vInt (page + tr.length - 1)) ∧
    ∀ k, ¬ k = "page" → ¬ k = "limit" →
      dictLookup finp k = dictLookup params k := by
  intro fuel
  induction fuel with
  | zero => intro page params items finp tr h; simp [drainLoop] at h
  | succ n ih =>
    intro page params items finp tr h
    simp only [drainLoop] at h
    rcases hsrc : src (dictSet (dictSet params "page" (.vInt page)) "limit"
        (.vInt 100)) with e | response
    · simp only [hsrc] at h
      exact absurd h (by simp)
    · simp only [hsrc] at h
      rcases hstep : drainStep response with e | st
      · simp only [hstep] at h
        exact absurd h (by simp)
      · simp only [hstep] at h
        rcases st with items0 | items0
        · simp only [Option.some.injEq, Prod.mk.injEq, Except.ok.injEq] at h
          obtain ⟨⟨-, hfin⟩, htr⟩ := h
          subst htr
          subst hfin
          refine ⟨(sentParams_lookup params page).2, ?_, ?_⟩
          · simpa using (sentParams_lookup params page).1
          · intro k hk1 hk2
            rw [dictLookup_dictSet_other _ _ _ _ hk2,
              dictLookup_dictSet_other _ _ _ _ hk1]
        · rcases hrec : drainLoop src n (page + 1)
              (dictSet (dictSet params "page" (.vInt page)) "limit" (.vInt 100))
            with - | ⟨r2, tr2⟩
          · simp only [hrec] at h
            exact Option.noConfusion h
          · simp only [hrec] at h
            rcases r2 with e | ⟨rest, finp2⟩
            · simp at h
            · simp only [Option.some.injEq, Prod.mk.injEq, Except.ok.injEq] at h
              obtain ⟨⟨-, hfin⟩, htr⟩ := h
              subst htr
              subst hfin
              obtain ⟨hlim, hpage, hother⟩ := ih (page + 1) _ _ _ _ hrec
              refine ⟨hlim, ?_, ?_⟩
              · rw [hpage]
                congr 2
                simp only [List.length_cons]
                omega
              · intro k hk1 hk2
                rw [hother k hk1 hk2,
                  dictLookup_dictSet_other _ _ _ _ hk2,
                  dictLookup_dictSet_other _ _ _ _ hk1]

/-- A list page of fewer than 100 items stops the loop (empty or short). -/
theorem drainStep_shortList (xs : List PyVal) (h : xs.length < 100) :
    ∃ items, drainStep (.vList xs) = .ok (.stop items) := by
  rcases xs with - | ⟨x, rest⟩
  · exact ⟨[], rfl⟩
  · refine ⟨x :: rest, ?_⟩
    simp only [drainStep, rawOf, pyTruthy, pyWrap, pyLen, List.isEmpty_cons,
      Bool.not_false]
    rw [if_neg (by simp), if_pos h]

/-- If the page numbered `k` always answers with a list of fewer than 100
items, the loop terminates with at most `k - page + 1` requests of fuel. -/
theorem drainLoop_term (src : Src) (k : Nat)
    (hk : ∀ q, dictLookup q "page" = some (.vInt k) →
      ∃ xs, src q = .ok (.vList xs) ∧ xs.length < 100) :
    ∀ (fuel page : Nat) (params : Params), page ≤ k → k < page + fuel →
    (drainLoop src fuel page params).isSome = true := by
  intro fuel
  induction fuel with
  | zero => intro page params h1 h2; omega
  | succ n ih =>
    intro page params h1 h2
    rw [drainLoop]
    by_cases hpk : page = k
    · subst hpk
      obtain ⟨xs, hsrc, hlen⟩ := hk _ (sentParams_lookup params page).1
      obtain ⟨items, hstep⟩ := drainStep_shortList xs hlen
      simp [hsrc, hstep]
    · rcases hsrc : src (dictSet (dictSet params "page" (.vInt page)) "limit"
          (.vInt 100)) with e | response
      · simp [hsrc]
      · simp only [hsrc]
        rcases hstep : drainStep response with e | st
        · simp [hstep]
        · rcases st with items | items
          · simp [hstep]
          · simp only [hstep]
            have hin := ih (page + 1)
              (dictSet (dictSet params "page" (.vInt page)) "limit" (.vInt 100))
              (by omega) (by omega)
            rcases hrec : drainLoop src n (page + 1)
                (dictSet (dictSet params "page" (.vInt page)) "limit"
                  (.vInt 100)) with - | ⟨r2, tr2⟩
            · rw [hrec] at hin
              simp at hin
            · rcases r2 with e | ⟨rest, finp⟩ <;> simp [hrec]

theorem runEndpoints_isSome (world : World) (fuel : Nat) :
    ∀ l : List (String × String),
    (∀ np ∈ l, (get_paginated_data (world np.2) none fuel).isSome = true) →
    (runEndpoints world fuel l).isSome = true := by
  intro l
  induction l with
  | nil => intro _; simp [runEndpoints]
  | cons e rest ih =>
    obtain ⟨name, path⟩ := e
    intro h
    have hhead := h (name, path) (List.mem_cons_self _ _)
    have htail := ih (fun np hnp => h np (List.mem_cons_of_mem _ hnp))
    rw [runEndpoints]
    rcases hg : get_paginated_data (world path) none fuel with - | ⟨r, tr⟩
    · rw [hg] at hhead
      simp at hhead
    · rcases hrest : runEndpoints world fuel rest with - | tail
      · rw [hrest] at htail
        simp at htail
      · rcases r with e2 | ⟨items, finp⟩ <;> simp [hrest]

theorem runEndpoints_keys (world : World) (fuel : Nat) :
    ∀ (l : List (String × String)) (res : List (String × List PyVal)),
    runEndpoints world fuel l = some res →
    res.map (fun e => e.1) = l.map (fun e => e.1) := by
  intro l
  induction l with
  | nil =>
    intro res h
    simp only [runEndpoints, Option.some.injEq] at h
    subst h
    rfl
  | cons e rest ih =>
    obtain ⟨name, path⟩ := e
    intro res h
    rw [runEndpoints] at h
    rcases hg : get_paginated_data (world path) none fuel with - | ⟨r, tr⟩
    · rw [hg] at h
      exact Option.noConfusion h
    · rw [hg] at h
      rcases hrest : runEndpoints world fuel rest with - | tail
      · rcases r with e2 | ⟨items, finp⟩ <;> rw [hrest] at h <;>
          exact Option.noConfusion h
      · rcases r with e2 | ⟨items, finp⟩ <;> rw [hrest] at h <;>
          simp only [Option.map_some', Option.some.injEq] at h <;>
          subst h <;> simp [ih tail hrest]

theorem runEndpoints_lookup (world : World) (fuel : Nat) :
    ∀ (l : List (String × String)) (res : List (String × List PyVal))
    (name path : String), (name, path) ∈ l →
    (l.map (fun e => e.1)).Nodup →
    runEndpoints world fuel l = some res →
    (res.find? (fun e => e.1 == name)).map (fun e => e.2) =
      endpointItems world fuel path := by
  intro l
  induction l with
  | nil => intro res name path hm; simp at hm
  | cons e rest ih =>
    obtain ⟨n0, p0⟩ := e
    intro res name path hm hnd h
    rw [runEndpoints] at h
    rcases hg : get_paginated_data (world p0) none fuel with - | ⟨r, tr⟩
    · rw [hg] at h
      exact Option.noConfusion h
    · rw [hg] at h
      rcases hrest : runEndpoints world fuel rest with - | tail
      · rcases r with e2 | ⟨items, finp⟩ <;> rw [hrest] at h <;>
          exact Option.noConfusion h
      · rcases List.mem_cons.mp hm with heq | hmem
        · have hn : name = n0 := congrArg Prod.fst heq
          have hp : path = p0 := congrArg Prod.snd heq
          subst hn
          subst hp
          have hbeq : (name == name) = true := by simp
          rcases r with e2 | ⟨items, finp⟩ <;>
            rw [hrest] at h <;>
            simp only [Option.map_some', Option.some.injEq] at h <;>
            subst h <;>
            simp [List.find?, endpointItems, hg]
        · simp only [List.map_cons, List.nodup_cons] at hnd
          obtain ⟨hn0, hndrest⟩ := hnd
          have hnamem : name ∈ rest.map (fun e => e.1) :=
            List.mem_map.mpr ⟨(name, path), hmem, rfl⟩
          have hne : (n0 == name) = false := by
            simp only [beq_eq_false_iff_ne, ne_eq]
            intro hc
            exact hn0 (hc ▸ hnamem)
          rcases r with e2 | ⟨items, finp⟩ <;>
            rw [hrest] at h <;>
            simp only [Option.map_some', Option.some.injEq] at h <;>
            subst h <;>
            simp only [List.find?, hne] <;>
            exact ih tail name path hmem hndrest hrest

/-- One rate-limited call starts no earlier than the stored timestamp plus
the minimum interval. -/
theorem wait_for_rate_limit_lower (lastTime currentTime slack : ℚ)
    (hs : 0 ≤ slack) (_hc : lastTime ≤ currentTime) :
    lastTime + minRequestInterval ≤
      wait_for_rate_limit lastTime currentTime slack := by
  simp only [wait_for_rate_limit]
  split_ifs with h
  · linarith
  · linarith [not_lt.mp h]

/-- A constant source whose single response stops the loop is drained with
exactly one request. -/
theorem drainLoop_stop_once (src : Src) (response : PyVal)
    (items : List PyVal) (fuel : Nat) (hsrc : ∀ q, src q = .ok response)
    (hstep : drainStep response = .ok (.stop items)) :
    drainLoop src (fuel + 1) 1 [] =
      some (.ok (items, [("page", .vInt 1), ("limit", .vInt 100)]), [1]) := by
  simp only [drainLoop, hsrc, hstep]
  rfl

/-- C1: under any world, for any fuel letting every endpoint's drain
terminate (successfully or by raising), `get_all_data` returns a mapping —
it never raises because of a single endpoint's failure — whose key list is
exactly the 11 declared endpoint names in declared order, each endpoint's
drain attempted exactly once; an endpoint whose drain raised is mapped to
the empty collection (never absent) and every other endpoint keeps its
drained collection. -/
theorem get_all_data_total_isolating (world : World) (fuel : Nat)
    (name path : String)
    (hterm : ∀ np ∈ endpoints,
      (get_paginated_data (world np.2) none fuel).isSome = true)
    (hmem : (name, path) ∈ endpoints) :
    (get_all_data world fuel).isSome = true ∧
    aggKeys (get_all_data world fuel) =
      some ["users", "trainings", "sessions", "attendees",
        "registration_folders", "certification_folders", "organisms",
        "activities", "evaluations", "invoices", "payments"] ∧
    aggLookup (get_all_data world fuel) name =
      endpointItems world fuel path := by
  have h1 := runEndpoints_isSome world fuel endpoints hterm
  rcases hres : runEndpoints world fuel endpoints with - | res
  · rw [hres] at h1
    simp at h1
  · refine ⟨by simp [get_all_data, hres], ?_, ?_⟩
    · have hk := runEndpoints_keys world fuel endpoints res hres
      rw [get_all_data, hres]
      simp only [aggKeys, Option.map_some', Option.some.injEq]
      rw [hk]
      rfl
    · have hnd : (endpoints.map (fun e => e.1)).Nodup := by decide
      have hl := runEndpoints_lookup world fuel endpoints res name path
        hmem hnd hres
      rw [get_all_data, hres]
      simpa [aggLookup] using hl

/-- Witness for C1 at a concrete world where the drain of `/api/attendees`
raises an HTTP 500 failure and every other endpoint returns one item. -/
theorem get_all_data_total_isolating_witness :
    (get_all_data worldOneFailure 1).isSome = true ∧
    aggKeys (get_all_data worldOneFailure 1) =
      some ["users", "trainings", "sessions", "attendees",
        "registration_folders", "certification_folders", "organisms",
        "activities", "evaluations", "invoices", "payments"] ∧
    aggLookup (get_all_data worldOneFailure 1) "attendees" =
      endpointItems worldOneFailure 1 "/api/attendees" :=
  get_all_data_total_isolating worldOneFailure 1 "attendees" "/api/attendees"
    (by decide) (by decide)

/-- C2 counterexample: the claim "every page whose normalized item count is
below 100 stops the drain" is false: a bare object with 100 keys (and no
`data` key) normalizes to a one-element page, yet the loop continues,
because the source compares `len(data)` of the un-wrapped dict — its key
count — against the limit (wedof_client.py line 118). -/
theorem shortPage_claim_counterexample :
    ¬ ∀ (response : PyVal) (st : StepOut), drainStep response = .ok st →
      (stItems st).length < 100 → isStop st = true := by
  intro hclaim
  have h1 : drainStep bigObject = .ok (.more [bigObject]) := by rfl
  have h2 := hclaim bigObject (.more [bigObject]) h1 (by decide)
  simp [isStop] at h2

/-- C2 amended: the drain stops after a page exactly when the raw
(pre-wrap) normalized value is falsy — an empty page — or its Python length
(item count of a sequence, key count of a mapping, character count of a
string) is strictly below 100; the items appended are the wrapped raw value
when truthy and nothing otherwise; and a stopping page ends the drain with
no further request. -/
theorem drainStep_stop_iff (response : PyVal) (st : StepOut) (data : PyVal)
    (fuel : Nat) (h1 : drainStep response = .ok st)
    (h2 : rawOf response = .ok data) :
    (isStop st = true ↔ (pyTruthy data = false ∨ pyLenD data < 100)) ∧
    stItems st = (if pyTruthy data = true then pyWrap data else []) ∧
    (isStop st = true →
      get_paginated_data (fun _ => .ok response) (some []) (fuel + 1) =
        some (.ok (stItems st, [("page", .vInt 1), ("limit", .vInt 100)]),
          [1])) := by
  have h0 := h1
  simp only [drainStep, h2] at h1
  by_cases ht : pyTruthy data = false
  · rw [if_pos ht] at h1
    have hst : st = .stop [] := by
      cases h1
      rfl
    subst hst
    refine ⟨by simp [isStop, ht], by simp [stItems, ht], fun _ => ?_⟩
    rw [get_paginated_data]
    show drainLoop _ (fuel + 1) 1 [] = _
    exact drainLoop_stop_once _ response [] fuel (fun q => rfl) h0
  · rw [if_neg ht] at h1
    rcases hlen : pyLen data with e | n
    · simp only [hlen] at h1
      exact Except.noConfusion h1
    · simp only [hlen] at h1
      have hlenD : pyLenD data = n := by simp [pyLenD, hlen]
      by_cases hn : n < 100
      · rw [if_pos hn] at h1
        have hst : st = .stop (pyWrap data) := by
          cases h1
          rfl
        subst hst
        refine ⟨by simp [isStop, hlenD, hn], ?_, fun _ => ?_⟩
        · simp [stItems, eq_true_of_ne_false ht]
        · rw [get_paginated_data]
          show drainLoop _ (fuel + 1) 1 [] = _
          exact drainLoop_stop_once _ response (pyWrap data) fuel
            (fun q => rfl) h0
      · rw [if_neg hn] at h1
        have hst : st = .more (pyWrap data) := by
          cases h1
          rfl
        subst hst
        refine ⟨by simp [isStop, hlenD, hn, ht], ?_, ?_⟩
        · simp [stItems, eq_true_of_ne_false ht]
        · intro hc
          simp [isStop] at hc

/-- Witness for C2's amended statement at a one-key bare object. -/
theorem drainStep_stop_iff_witness :
    (isStop (.stop [PyVal.vDict [("id", .vInt 1)]]) = true ↔
      (pyTruthy (PyVal.vDict [("id", .vInt 1)]) = false ∨
        pyLenD (PyVal.vDict [("id", .vInt 1)]) < 100)) ∧
    stItems (.stop [PyVal.vDict [("id", .vInt 1)]]) =
      (if pyTruthy (PyVal.vDict [("id", .vInt 1)]) = true
        then pyWrap (PyVal.vDict [("id", .vInt 1)]) else []) ∧
    (isStop (.stop [PyVal.vDict [("id", .vInt 1)]]) = true →
      get_paginated_data (fun _ => .ok (PyVal.vDict [("id", .vInt 1)]))
          (some []) (0 + 1) =
        some (.ok (stItems (.stop [PyVal.vDict [("id", .vInt 1)]]),
          [("page", .vInt 1), ("limit", .vInt 100)]), [1])) :=
  drainStep_stop_iff (PyVal.vDict [("id", .vInt 1)])
    (.stop [PyVal.vDict [("id", .vInt 1)]]) (PyVal.vDict [("id", .vInt 1)])
    0 rfl rfl

/-- C3 counterexample: the claim "any response that is not a sequence and
has no data field is wrapped into a one-element page" is false for the empty
bare object: the code checks `if not data` before wrapping, so `{}` is
treated as an empty page (the loop appends nothing and stops) instead of
producing the one-element page `[{}]`. -/
theorem normalization_claim_counterexample :
    ¬ ∀ (response : PyVal) (items : List PyVal),
      pageItemsOf response = some items → items = claimNormalize response := by
  intro hclaim
  have h := hclaim (.vDict []) [] rfl
  have h2 : ([] : List PyVal) = [PyVal.vDict []] := h
  exact List.noConfusion h2

/-- C3 amended: one loop iteration selects the raw value by the three source
cases (the sequence itself; the `data` field's value; the whole response),
and the page it appends is that raw value's items if it is a sequence, a
one-element sequence holding it if it is truthy but not a sequence, and the
empty page — terminating the drain — if it is falsy; in particular
`{data: [{id: 1}]}` yields `[{id: 1}]` and the bare object `{id: 1}` yields
`[{id: 1}]`. -/
theorem normalization_amended (response data : PyVal) (items : List PyVal)
    (h1 : rawOf response = .ok data) (h2 : pageItemsOf response = some items) :
    items = (if pyTruthy data = true then pyWrap data else []) ∧
    pageItemsOf (.vDict [("data", .vList [.vDict [("id", .vInt 1)]])]) =
      some [.vDict [("id", .vInt 1)]] ∧
    pageItemsOf (.vDict [("id", .vInt 1)]) =
      some [.vDict [("id", .vInt 1)]] := by
  refine ⟨?_, rfl, rfl⟩
  simp only [pageItemsOf, drainStep, h1] at h2
  by_cases ht : pyTruthy data = false
  · rw [if_pos ht] at h2
    simp only [Option.some.injEq] at h2
    simp [ht, h2.symm, stItems]
  · rw [if_neg ht] at h2
    rcases hlen : pyLen data with e | n
    · simp only [hlen] at h2
      exact Option.noConfusion h2
    · simp only [hlen] at h2
      by_cases hn : n < 100 <;>
        [rw [if_pos hn] at h2; rw [if_neg hn] at h2] <;>
        simp only [Option.some.injEq] at h2 <;>
        simp [eq_true_of_ne_false ht, h2.symm, stItems]

/-- Witness for C3's amended statement at a bare string response. -/
theorem normalization_amended_witness :
    ([PyVal.vStr "hello"] =
      (if pyTruthy (PyVal.vStr "hello") = true
        then pyWrap (PyVal.vStr "hello") else [])) ∧
    pageItemsOf (.vDict [("data", .vList [.vDict [("id", .vInt 1)]])]) =
      some [.vDict [("id", .vInt 1)]] ∧
    pageItemsOf (.vDict [("id", .vInt 1)]) =
      some [.vDict [("id", .vInt 1)]] :=
  normalization_amended (.vStr "hello") (.vStr "hello") [.vStr "hello"]
    rfl rfl

set_option maxRecDepth 40000 in
/-- C4: the drain of a mock endpoint with page sizes [100, 100, 37] issues
exactly 3 requests and returns the 237 items in original concatenation
order; page sizes [100, 100, 0] issue exactly 3 requests for 200 items; and
an endpoint whose first page is empty yields a zero-length collection after
exactly one request. -/
theorem drain_scenarios :
    get_paginated_data srcShort (some []) 10 =
      some (.ok ((List.range 237).map (fun i => .vInt (Int.ofNat i)),
        [("page", .vInt 3), ("limit", .vInt 100)]), [1, 2, 3]) ∧
    get_paginated_data srcExact (some []) 10 =
      some (.ok ((List.range 200).map (fun i => .vInt (Int.ofNat i)),
        [("page", .vInt 3), ("limit", .vInt 100)]), [1, 2, 3]) ∧
    get_paginated_data srcEmpty (some []) 10 =
      some (.ok ([], [("page", .vInt 1), ("limit", .vInt 100)]), [1]) := by
  refine ⟨?_, ?_, rfl⟩ <;> rfl

/-- C5: a response whose JSON decoding fails makes the drain fail with that
error propagated to the caller, and a response value fitting none of the
normalization cases' type expectations (a bare number, on which Python's
`'data' in response` raises `TypeError`) likewise fails the drain as a hard
error — neither is silently coerced into a page. -/
theorem drain_propagates_malformed (src src2 : Src) (params0 : Params)
    (fuel : Nat) (n : Int)
    (hdec : ∀ q, src q = .error .decode)
    (hnum : ∀ q, src2 q = .ok (.vInt n)) :
    get_paginated_data src (some params0) (fuel + 1) =
      some (.error (.req .decode), [1]) ∧
    get_paginated_data src2 (some params0) (fuel + 1) =
      some (.error (.py .typeError), [1]) := by
  constructor
  · simp [get_paginated_data, drainLoop, hdec]
  · simp [get_paginated_data, drainLoop, hnum, drainStep, rawOf,
      pyContainsData]

/-- Witness for C5 at concrete failing sources. -/
theorem drain_propagates_malformed_witness :
    get_paginated_data srcDecodeFailure (some []) 1 =
      some (.error (.req .decode), [1]) ∧
    get_paginated_data srcScalar (some []) 1 =
      some (.error (.py .typeError), [1]) :=
  drain_propagates_malformed srcDecodeFailure srcScalar [] 0 7
    (fun _ => rfl) (fun _ => rfl)

/-- C6 counterexample: two 200 JSON-decodable responses identical except
for the remaining-quota header — absent versus the non-numeric value
"unlimited" — do not return the same result: `int()` on the header raises
`ValueError`, caught by neither except clause, so the run with the header
fails while the header-less run succeeds. -/
theorem header_independence_counterexample :
    (make_request (some ⟨200, none, some (.vList [])⟩)).1 =
      .ok (.vList []) ∧
    (make_request (some ⟨200, some "unlimited", some (.vList [])⟩)).1 =
      .error .valueError ∧
    (make_request (some ⟨200, none, some (.vList [])⟩)).1 ≠
      (make_request (some ⟨200, some "unlimited", some (.vList [])⟩)).1 := by
  refine ⟨rfl, rfl, ?_⟩
  intro h
  exact Except.noConfusion
    (show (Except.ok (PyVal.vList []) : Except ReqErr PyVal) =
      .error .valueError from h)

/-- C6 amended: for a successful (2xx, JSON-decodable) response whose
`X-RateLimit-Remaining` header is absent or parses as an integer, the value
`_make_request` returns — and that it succeeds at all — is independent of
the header: two such responses agreeing on status and body but differing in
the header return the same result, and the header only determines whether
the low-quota warning is logged (present, parsed, and below 5).  A present
non-numeric header instead raises `ValueError`, so the unrestricted
independence of the original claim fails. -/
theorem make_request_header_independent (r1 r2 : HttpResponse) (v : PyVal)
    (hstatus : r1.status = r2.status) (hbody : r1.body = r2.body)
    (h2xx : 200 ≤ r1.status ∧ r1.status < 300) (hv : r1.body = some v)
    (hp1 : headerParses r1.rateLimitRemaining = true)
    (hp2 : headerParses r2.rateLimitRemaining = true) :
    (make_request (some r1)).1 = (make_request (some r2)).1 ∧
    (make_request (some r1)).1 = .ok v ∧
    (make_request (some r1)).2 = lowQuota r1.rateLimitRemaining := by
  have hns : ¬ (400 ≤ r1.status ∧ r1.status < 600) := by omega
  have hns2 : ¬ (400 ≤ r2.status ∧ r2.status < 600) := by
    rw [← hstatus]
    omega
  have hv2 : r2.body = some v := hbody ▸ hv
  have key : ∀ r : HttpResponse, ¬ (400 ≤ r.status ∧ r.status < 600) →
      r.body = some v → headerParses r.rateLimitRemaining = true →
      make_request (some r) = (.ok v, lowQuota r.rateLimitRemaining) := by
    intro r hr hb hp
    simp only [make_request, if_neg hr]
    rcases hh : r.rateLimitRemaining with - | hs0
    · simp only [hb, lowQuota]
    · rw [hh] at hp
      simp only [headerParses] at hp
      rcases hpi : pyIntOfString hs0 with - | remaining
      · rw [hpi] at hp
        simp at hp
      · simp only [hpi, hb, lowQuota]
  rw [key r1 hns hv hp1, key r2 hns2 hv2 hp2]
  exact ⟨rfl, rfl, rfl⟩

/-- Witness for C6's amended statement: two concrete 200 responses, one with
the numeric header "3" and one with no header. -/
theorem make_request_header_independent_witness :
    (make_request (some ⟨200, some "3", some (.vList [])⟩)).1 =
      (make_request (some ⟨200, none, some (.vList [])⟩)).1 ∧
    (make_request (some ⟨200, some "3", some (.vList [])⟩)).1 =
      .ok (.vList []) ∧
    (make_request (some ⟨200, some "3", some (.vList [])⟩)).2 =
      lowQuota (HttpResponse.mk 200 (some "3")
        (some (.vList []))).rateLimitRemaining :=
  make_request_header_independent ⟨200, some "3", some (.vList [])⟩
    ⟨200, none, some (.vList [])⟩ (.vList []) rfl rfl (by decide) rfl
    (by decide) rfl

/-- C7: for any sequence of consecutive fetcher calls on one client
instance, under nonnegative slacks and a clock that never runs backwards
(each call's first reading is no earlier than the previous call's start),
the span between the starts of calls n and n+1 is at least the configured
minimum interval of 0.6 seconds: the fetcher computes the elapsed time since
the previous call and sleeps for the remaining duration when it is smaller
than the interval. -/
theorem rate_floor (clk eps : Nat → ℚ) (n : Nat)
    (heps : ∀ i, 0 ≤ eps i)
    (hclk : ∀ i, callStart clk eps i ≤ clk (i + 1)) :
    callStart clk eps n + minRequestInterval ≤ callStart clk eps (n + 1) :=
  wait_for_rate_limit_lower (callStart clk eps n) (clk (n + 1))
    (eps (n + 1)) (heps (n + 1)) (hclk n)

/-- Witness for C7 at a clock ticking every 10 seconds with zero slack. -/
theorem rate_floor_witness :
    callStart clkW epsW 0 + minRequestInterval ≤ callStart clkW epsW 1 := by
  have hs : ∀ i, callStart clkW epsW i = 10 * ((i : ℚ) + 1) := by
    intro i
    induction i with
    | zero =>
      show wait_for_rate_limit 0 (clkW 0) (epsW 0) = _
      simp only [wait_for_rate_limit, clkW, epsW, minRequestInterval]
      norm_num
    | succ m ihm =>
      show wait_for_rate_limit (callStart clkW epsW m) (clkW (m + 1))
          (epsW (m + 1)) = _
      rw [ihm]
      simp only [wait_for_rate_limit, clkW, epsW, minRequestInterval]
      have hif : ¬ (10 * (((m : Nat) + 1 : ℚ) + 1) - 10 * ((m : ℚ) + 1)
          < 3 / 5) := by
        ring_nf
        norm_num
      rw [if_neg (by push_cast at hif ⊢; exact hif)]
      push_cast
      ring
  refine rate_floor clkW epsW 0 (fun i => le_refl 0) ?_
  intro i
  rw [hs i]
  simp only [clkW]
  push_cast
  have : (0 : ℚ) ≤ (i : ℚ) := Nat.cast_nonneg i
  linarith

/-- C8: each named per-endpoint accessor returns its path's drain directly,
so a failure raised during the drain (transport failure, non-2xx status, or
malformed response) propagates unrecovered to the accessor's caller — no
containment below the aggregate level. -/
theorem accessors_propagate (world : World) (fuel : Nat) (e : DrainErr)
    (tr : List Nat) :
    (get_paginated_data (world "/api/users") none fuel =
        some (.error e, tr) →
      get_users world fuel = some (.error e, tr)) ∧
    (get_paginated_data (world "/api/trainings") none fuel =
        some (.error e, tr) →
      get_trainings world fuel = some (.error e, tr)) ∧
    (get_paginated_data (world "/api/sessions") none fuel =
        some (.error e, tr) →
      get_sessions world fuel = some (.error e, tr)) ∧
    (get_paginated_data (world "/api/attendees") none fuel =
        some (.error e, tr) →
      get_attendees world fuel = some (.error e, tr)) ∧
    (get_paginated_data (world "/api/registrationFolders") none fuel =
        some (.error e, tr) →
      get_registration_folders world fuel = some (.error e, tr)) ∧
    (get_paginated_data (world "/api/certificationFolders") none fuel =
        some (.error e, tr) →
      get_certification_folders world fuel = some (.error e, tr)) ∧
    (get_paginated_data (world "/api/organisms") none fuel =
        some (.error e, tr) →
      get_organisms world fuel = some (.error e, tr)) ∧
    (get_paginated_data (world "/api/activities") none fuel =
        some (.error e, tr) →
      get_activities world fuel = some (.error e, tr)) ∧
    (get_paginated_data (world "/api/evaluations") none fuel =
        some (.error e, tr) →
      get_evaluations world fuel = some (.error e, tr)) ∧
    (get_paginated_data (world "/api/invoices") none fuel =
        some (.error e, tr) →
      get_invoices world fuel = some (.error e, tr)) ∧
    (get_paginated_data (world "/api/payments") none fuel =
        some (.error e, tr) →
      get_payments world fuel = some (.error e, tr)) :=
  ⟨fun h => h, fun h => h, fun h => h, fun h => h, fun h => h, fun h => h,
    fun h => h, fun h => h, fun h => h, fun h => h, fun h => h⟩

/-- Witness for C8: a world failing every request at the transport layer;
each accessor surfaces the failure of its first request. -/
theorem accessors_propagate_witness :
    get_users worldTransportFailure 1 =
      some (.error (.req .transport), [1]) ∧
    get_trainings worldTransportFailure 1 =
      some (.error (.req .transport), [1]) ∧
    get_sessions worldTransportFailure 1 =
      some (.error (.req .transport), [1]) ∧
    get_attendees worldTransportFailure 1 =
      some (.error (.req .transport), [1]) ∧
    get_registration_folders worldTransportFailure 1 =
      some (.error (.req .transport), [1]) ∧
    get_certification_folders worldTransportFailure 1 =
      some (.error (.req .transport), [1]) ∧
    get_organisms worldTransportFailure 1 =
      some (.error (.req .transport), [1]) ∧
    get_activities worldTransportFailure 1 =
      some (.error (.req .transport), [1]) ∧
    get_evaluations worldTransportFailure 1 =
      some (.error (.req .transport), [1]) ∧
    get_invoices worldTransportFailure 1 =
      some (.error (.req .transport), [1]) ∧
    get_payments worldTransportFailure 1 =
      some (.error (.req .transport), [1]) := by
  have h := accessors_propagate worldTransportFailure 1 (.req .transport) [1]
  exact ⟨h.1 rfl, h.2.1 rfl, h.2.2.1 rfl, h.2.2.2.1 rfl, h.2.2.2.2.1 rfl,
    h.2.2.2.2.2.1 rfl, h.2.2.2.2.2.2.1 rfl, h.2.2.2.2.2.2.2.1 rfl,
    h.2.2.2.2.2.2.2.2.1 rfl, h.2.2.2.2.2.2.2.2.2.1 rfl,
    h.2.2.2.2.2.2.2.2.2.2 rfl⟩

/-- C9: whenever some page k of the source answers with a list of fewer
than 100 items (a short or empty page), the drain terminates — given fuel of
at least k — and its trace of requested pages counts up from 1 by exactly
one per iteration: page 1, 2, 3, ... -/
theorem drain_terminates (src : Src) (params0 : Params) (k fuel : Nat)
    (hk : ∀ q, dictLookup q "page" = some (.vInt k) →
      ∃ xs, src q = .ok (.vList xs) ∧ xs.length < 100)
    (h1 : 1 ≤ k) (hf : k ≤ fuel) :
    (get_paginated_data src (some params0) fuel).isSome = true ∧
    drainTrace src (some params0) fuel =
      List.range' 1 (drainTrace src (some params0) fuel).length := by
  have hterm := drainLoop_term src k hk fuel 1 (initParams (some params0))
    h1 (by omega)
  refine ⟨hterm, ?_⟩
  rcases hres : drainLoop src fuel 1 (initParams (some params0))
    with - | ⟨r, tr⟩
  · rw [hres] at hterm
    simp at hterm
  · have htr := (drainLoop_trace src fuel 1 _ r tr hres).1
    have hdt : drainTrace src (some params0) fuel = tr := by
      simp only [drainTrace, get_paginated_data, hres]
    rw [hdt]
    exact htr

/-- Witness for C9 at an endpoint whose first page is empty. -/
theorem drain_terminates_witness :
    (get_paginated_data srcEmpty (some []) 1).isSome = true ∧
    drainTrace srcEmpty (some []) 1 =
      List.range' 1 (drainTrace srcEmpty (some []) 1).length :=
  drain_terminates srcEmpty [] 1 1
    (fun q _ => ⟨[], rfl, by decide⟩) (le_refl 1) (le_refl 1)

/-- C10: the drain mutates the caller-supplied mapping in place: a
non-empty caller mapping is the very object the loop works on (`params or
\x7b\x7d` keeps it), and after a successful drain it holds "limit" bound to 100
and "page" bound to the number of the last page requested (the trace is
1, ..., n, so that number is the trace's length), overwriting any
caller-supplied entries of those names while leaving every other key bound
as the caller set it; only an absent or empty caller mapping is replaced by
a fresh one. -/
theorem params_mutated_in_place (src : Src) (l : Params) (fuel : Nat)
    (items : List PyVal) (finp : Params) (tr : List Nat) (k : String)
    (hne : l ≠ [])
    (hrun : get_paginated_data src (some l) fuel =
      some (.ok (items, finp), tr))
    (hk1 : ¬ k = "page") (hk2 : ¬ k = "limit") :
    paramsShared (some l) = true ∧
    dictLookup finp "limit" = some (.vInt 100) ∧
    dictLookup finp "page" = some (.vInt tr.length) ∧
    tr = List.range' 1 tr.length ∧
    dictLookup finp k = dictLookup l k ∧
    paramsShared (some ([] : Params)) = false ∧
    paramsShared (none : Option Params) = false := by
  have hinit : initParams (some l) = l := by
    cases l with
    | nil => exact absurd rfl hne
    | cons p rest => rfl
  have hrun2 : drainLoop src fuel 1 l = some (.ok (items, finp), tr) := by
    rw [← hinit]
    exact hrun
  obtain ⟨hlim, hpage, hother⟩ :=
    drainLoop_finalParams src fuel 1 l items finp tr hrun2
  obtain ⟨htr, -⟩ := drainLoop_trace src fuel 1 l _ tr hrun2
  refine ⟨?_, hlim, ?_, htr, hother k hk1 hk2, rfl, rfl⟩
  · cases l with
    | nil => exact absurd rfl hne
    | cons p rest => rfl
  · rw [hpage]
    congr 2
    omega

/-- Witness for C10 at a one-page drain over a caller mapping holding one
unrelated key. -/
theorem params_mutated_in_place_witness :
    paramsShared (some [("since", PyVal.vStr "2024")]) = true ∧
    dictLookup [("since", PyVal.vStr "2024"), ("page", PyVal.vInt 1),
      ("limit", PyVal.vInt 100)] "limit" = some (.vInt 100) ∧
    dictLookup [("since", PyVal.vStr "2024"), ("page", PyVal.vInt 1),
      ("limit", PyVal.vInt 100)] "page" = some (.vInt 1) ∧
    ([1] : List Nat) = List.range' 1 ([1] : List Nat).length ∧
    dictLookup [("since", PyVal.vStr "2024"), ("page", PyVal.vInt 1),
      ("limit", PyVal.vInt 100)] "since" =
      dictLookup [("since", PyVal.vStr "2024")] "since" ∧
    paramsShared (some ([] : Params)) = false ∧
    paramsShared (none : Option Params) = false :=
  params_mutated_in_place srcEmpty [("since", PyVal.vStr "2024")] 1 []
    [("since", PyVal.vStr "2024"), ("page", PyVal.vInt 1),
      ("limit", PyVal.vInt 100)]
    [1] "since" (by simp) rfl (by decide) (by decide)

end WedofSync
